import Mathlib

/-!
Shallow embedding of the `db-alchemy-core` data-access layer.

Sources embedded:
* `src/db/core/database.py` — the `connection` decorator (transaction scope);
* `src/db/core/exc.py` — the error taxonomy;
* `src/db/repositories/abstract_repo.py` — the `BaseRepository` CRUD surface
  (`get_one`, `get_many`, `create`, `update`, `delete`) together with its query
  builders (`_build_conditions`, `_validate_fields`, `_build_select_query`,
  `_build_grouped_query`, `_apply_filters`, `_apply_ordering`,
  `_apply_grouping`, `_apply_having_filters`).

The SQL store itself is an external collaborator: it is modelled as a small
deterministic engine over in-memory tables of integer-valued rows.  Every
statement the repository sends to the store is recorded in a trace, so that
"before any statement execution" is directly statable.
-/

namespace DbAlchemy

/-! ## Python exception model for the transaction scope

`connection` in `database.py` distinguishes exactly one class of exceptions:
`SQLAlchemyError` (caught and rolled back) versus everything else (validation
errors, which propagate untouched).  -/

inductive PyExc where
  | sqlAlchemy (msg : String)
  | other (msg : String)
deriving DecidableEq, Repr

/-- Session-level events, in the order the decorator performs them. -/
inductive SessionEvent where
  | acquire
  | setIsolation
  | runWork
  | commitTx
  | rollbackTx
  | closeSession
deriving DecidableEq, Repr

/-- Oracle for the store-side outcome of each session operation performed by
the `connection` wrapper: the isolation-level directive, the wrapped method,
`session.commit()` and `session.rollback()`.  `session.close()` is assumed to
succeed (the `finally` block is the last action either way). -/
structure SessionBehavior (α : Type) where
  isoResult : Except PyExc Unit
  workResult : Except PyExc α
  commitResult : Except PyExc Unit
  rollbackResult : Except PyExc Unit
deriving Repr

/-- The `except SQLAlchemyError` handler of `connection` (database.py lines
130-137): attempt `session.rollback()`, swallow a `SQLAlchemyError` raised by
the rollback itself, re-raise the original error.  A non-`SQLAlchemyError`
raised by the rollback would escape the inner `except` clause and replace the
original error. -/
def handle_sql_error {α : Type} (b : SessionBehavior α) (msg : String)
    (tr : List SessionEvent) : Except PyExc α × List SessionEvent :=
  let tr := tr ++ [SessionEvent.rollbackTx]
  match b.rollbackResult with
  | .ok _ => (.error (.sqlAlchemy msg), tr)
  | .error (.sqlAlchemy _) => (.error (.sqlAlchemy msg), tr)
  | .error (.other m2) => (.error (.other m2), tr)

/-- The `try` body of the `connection` wrapper (database.py lines 116-137):
acquire a session, optionally issue the isolation-level directive, run the
wrapped method, commit when `commit` is set, and on `SQLAlchemyError` run the
rollback handler.  Returns the outcome together with the trace of session
events so far. -/
def connection_body {α : Type} (isolationLevel : Option String) (commit : Bool)
    (b : SessionBehavior α) : Except PyExc α × List SessionEvent :=
  let tr : List SessionEvent := [SessionEvent.acquire]
  let tr := match isolationLevel with
    | some _ => tr ++ [SessionEvent.setIsolation]
    | none => tr
  let isoOut : Except PyExc Unit := match isolationLevel with
    | some _ => b.isoResult
    | none => .ok ()
  match isoOut with
  | .error (.sqlAlchemy m) => handle_sql_error b m tr
  | .error (.other m) => (.error (.other m), tr)
  | .ok _ =>
    let tr := tr ++ [SessionEvent.runWork]
    match b.workResult with
    | .error (.sqlAlchemy m) => handle_sql_error b m tr
    | .error (.other m) => (.error (.other m), tr)
    | .ok a =>
      if commit then
        let tr := tr ++ [SessionEvent.commitTx]
        match b.commitResult with
        | .error (.sqlAlchemy m) => handle_sql_error b m tr
        | .error (.other m) => (.error (.other m), tr)
        | .ok _ => (.ok a, tr)
      else
        (.ok a, tr)

/-- Embedding of the wrapper of the `connection` decorator (database.py lines
102-145): the `try` body above followed by the `finally` block, which closes
the session on every path. -/
def connection_run {α : Type} (isolationLevel : Option String) (commit : Bool)
    (b : SessionBehavior α) : Except PyExc α × List SessionEvent :=
  let body := connection_body isolationLevel commit b
  (body.1, body.2 ++ [SessionEvent.closeSession])

/-- The first store-layer (`SQLAlchemyError`) failure the wrapper encounters,
in execution order: isolation directive (when a level is supplied), then the
unit of work, then commit (when `commit` is set).  `none` when the run
succeeds or fails with a non-store error first. -/
def first_store_failure {α : Type} (isolationLevel : Option String)
    (commit : Bool) (b : SessionBehavior α) : Option String :=
  let isoOut : Except PyExc Unit := match isolationLevel with
    | some _ => b.isoResult
    | none => .ok ()
  match isoOut with
  | .error (.sqlAlchemy m) => some m
  | .error (.other _) => none
  | .ok _ =>
    match b.workResult with
    | .error (.sqlAlchemy m) => some m
    | .error (.other _) => none
    | .ok _ =>
      if commit then
        match b.commitResult with
        | .error (.sqlAlchemy m) => some m
        | _ => none
      else none

/-! ## Repository layer: data model

Rows are integer-valued records keyed by field name; a table is a list of
rows.  A filter payload is the result of `model_dump(exclude_unset=True)`:
the ordered association list of the explicitly set fields.  The catalog is
the ordered list of model column names (`_model_columns_map`). -/

abbrev Field := String

abbrev Row := List (Field × Int)

abbrev Catalog := List Field

/-- A value appearing in a filter payload: a scalar, or a sequence (Python
`list`). -/
inductive FieldVal where
  | scalar (v : Int)
  | seq (vs : List Int)
deriving DecidableEq, Repr

abbrev FilterDict := List (Field × FieldVal)

/-- Error taxonomy of `src/db/core/exc.py` plus the two SQLAlchemy-raised
conditions the repository surfaces (`MultipleResultsFound` from strict
`get_one`, and store-layer failures). -/
inductive RepoError where
  | invalidField (f : Field)
  | emptyFilter
  | emptyValue
  | unknownAggregationFunc (fn : String)
  | notFound
  | multipleResults
  | storeFailure (msg : String)
deriving DecidableEq, Repr

/-- SQL predicates emitted by `_build_conditions` / `_apply_having_filters`:
equality against a scalar, membership in a list, and the degenerate
column-equals-list comparison `_apply_having_filters` can build. -/
inductive Predicate where
  | eqPred (f : Field) (v : Int)
  | inPred (f : Field) (vs : List Int)
  | eqSeq (f : Field) (vs : List Int)
deriving DecidableEq, Repr

/-- Store-model evaluation of a predicate against a row.  A column compared
to a list literal (`eqSeq`) never matches in this store model. -/
def Predicate.eval : Predicate → Row → Bool
  | .eqPred f v, r => r.lookup f = some v
  | .inPred f vs, r =>
    match r.lookup f with
    | some x => vs.contains x
    | none => false
  | .eqSeq _ _, _ => false

/-- A selected column: a plain labeled model column (label = field name), or
a labeled aggregate `func(column).label(label)`. -/
inductive SelCol where
  | plain (f : Field)
  | aggCol (fn : String) (f : Field) (label : String)
deriving DecidableEq, Repr

/-- The intermediate representation of a SELECT statement under
construction, mirroring the incrementally composed SQLAlchemy `Select`. -/
structure Query where
  cols : List SelCol
  wherePreds : List Predicate
  groupByCols : List Field
  havingPreds : List Predicate
  orderBySpec : List (Field × Bool)
  offsetN : Option Int
  limitN : Option Int
  isDistinct : Bool
deriving DecidableEq, Repr

/-- A fresh SELECT over the given columns, no clauses yet. -/
def Query.base (cols : List SelCol) (dist : Bool) : Query :=
  ⟨cols, [], [], [], [], none, none, dist⟩

/-- Statements sent to the store via `session.execute`. -/
inductive Stmt where
  | selectS (q : Query)
  | insertS (vals : List Row)
  | updateS (preds : List Predicate) (vals : Row)
  | deleteS (preds : List Predicate)
deriving DecidableEq, Repr

/-- Python truthiness of an optional string-or-list parameter
(`None`, `""` and `[]` are falsy). -/
def truthyList {α : Type} : Option (List α) → Bool
  | some (_ :: _) => true
  | _ => false

/-- Python truthiness of an optional integer parameter (`None` and `0` are
falsy). -/
def truthyInt : Option Int → Bool
  | some n => n ≠ 0
  | none => false

/-! ## Query builders (`abstract_repo.py`) -/

/-- Embeds `_validate_fields` (lines 419-429): keep fields that exist in the model,
raise `InvalidFieldError` at the first one that does not. -/
def validate_fields (cat : Catalog) : List Field → Except RepoError (List Field)
  | [] => .ok []
  | f :: rest =>
    if f ∈ cat then
      match validate_fields cat rest with
      | .ok v => .ok (f :: v)
      | .error e => .error e
    else .error (.invalidField f)

/-- Embeds `_build_conditions` (lines 431-467): for each set field, an IN predicate
for a non-empty list value, nothing for an empty list value, an equality
predicate otherwise; `InvalidFieldError` on a field absent from the model. -/
def build_conditions (cat : Catalog) : FilterDict → Except RepoError (List Predicate)
  | [] => .ok []
  | (f, v) :: rest =>
    if f ∈ cat then
      match v with
      | .seq vs =>
        if vs.isEmpty then build_conditions cat rest
        else
          match build_conditions cat rest with
          | .ok c => .ok (.inPred f vs :: c)
          | .error e => .error e
      | .scalar x =>
        match build_conditions cat rest with
        | .ok c => .ok (.eqPred f x :: c)
        | .error e => .error e
    else .error (.invalidField f)

/-- Embeds `_build_select_query` (lines 276-297). -/
def build_select_query (cat : Catalog) (selectFields : Option (List Field))
    (useDistinct : Bool) : Except RepoError Query :=
  if truthyList selectFields then
    match validate_fields cat (selectFields.getD []) with
    | .ok valid => .ok (Query.base (valid.map .plain) useDistinct)
    | .error e => .error e
  else
    .ok (Query.base (cat.map .plain) useDistinct)

/-- The aggregation-function whitelist of `_build_grouped_query`. -/
def valid_agg_funcs : List String := ["count", "sum", "avg", "min", "max"]

/-- Models the Python `str.lower` method for function names (character-wise lowercase). -/
def str_lower (s : String) : String := ⟨s.data.map Char.toLower⟩

/-- The aggregation loop of `_build_grouped_query` (lines 320-338): an entry
whose field is absent from the model is silently skipped; an entry whose
(lowercased) function name is outside the whitelist raises
`UnknowAggregationFunc`. -/
def agg_columns (cat : Catalog) : List (Field × String) → Except RepoError (List SelCol)
  | [] => .ok []
  | (f, fn) :: rest =>
    if f ∈ cat then
      if str_lower fn ∈ valid_agg_funcs then
        match agg_columns cat rest with
        | .ok cs => .ok (.aggCol (str_lower fn) f (f ++ "_" ++ fn) :: cs)
        | .error e => .error e
      else .error (.unknownAggregationFunc fn)
    else agg_columns cat rest

/-- Embeds `_build_grouped_query` (lines 299-344): validated group-by fields plus
labeled aggregate columns; when the aggregation map is truthy but the column
list ends up empty, fall back to all model columns. -/
def build_grouped_query (cat : Catalog) (groupBy : Option (List Field))
    (aggs : Option (List (Field × String))) : Except RepoError Query :=
  let gv : Except RepoError (List Field) :=
    if truthyList groupBy then validate_fields cat (groupBy.getD [])
    else .ok []
  match gv with
  | .error e => .error e
  | .ok gcols =>
    let cols1 : List SelCol := gcols.map .plain
    if truthyList aggs then
      match agg_columns cat (aggs.getD []) with
      | .error e => .error e
      | .ok acs =>
        let cols := cols1 ++ acs
        let cols := if cols.isEmpty then cat.map .plain else cols
        .ok (Query.base cols false)
    else
      .ok (Query.base cols1 false)

/-- Embeds `_apply_filters` (lines 346-354). -/
def apply_filters (cat : Catalog) (q : Query) (fd : FilterDict) :
    Except RepoError Query :=
  match build_conditions cat fd with
  | .error e => .error e
  | .ok conds =>
    if conds.isEmpty then .ok q
    else .ok { q with wherePreds := q.wherePreds ++ conds }

/-- Embeds `_apply_ordering` (lines 358-382): strip a leading `-` for descending
order, silently skip fields absent from the model. -/
def apply_ordering (cat : Catalog) (q : Query) (ob : List String) : Query :=
  ob.foldl
    (fun acc s =>
      let desc := s.startsWith "-"
      let f := if desc then s.drop 1 else s
      if f ∈ cat then { acc with orderBySpec := acc.orderBySpec ++ [(f, desc)] }
      else acc)
    q

/-- Embeds `_apply_grouping` (lines 384-400): silently skip unknown fields; only add
a GROUP BY clause when at least one field survived. -/
def apply_grouping (cat : Catalog) (q : Query) (gb : List Field) : Query :=
  let gcols := gb.filter (fun f => decide (f ∈ cat))
  if gcols.isEmpty then q
  else { q with groupByCols := q.groupByCols ++ gcols }

/-- Embeds `_apply_having_filters` (lines 402-417): equality conditions on the set
fields that exist in the model (a list value becomes the degenerate
column-equals-list comparison). -/
def apply_having_filters (cat : Catalog) (q : Query) (hf : FilterDict) : Query :=
  let conds := hf.foldl
    (fun acc (p : Field × FieldVal) =>
      if p.1 ∈ cat then
        match p.2 with
        | .scalar v => acc ++ [Predicate.eqPred p.1 v]
        | .seq vs => acc ++ [Predicate.eqSeq p.1 vs]
      else acc)
    ([] : List Predicate)
  if conds.isEmpty then q
  else { q with havingPreds := q.havingPreds ++ conds }

/-! ## Store model

The relational store is an external collaborator; the model below executes
the built statements deterministically over in-memory tables.  Rows keep the
insertion order of the table; aggregate average uses integer division. -/

/-- Store-model evaluation of an aggregate function over the values of one
column within one group. -/
def eval_agg (fn : String) (vals : List Int) : Int :=
  match fn with
  | "count" => (vals.length : Int)
  | "sum" => vals.sum
  | "avg" => vals.sum / (vals.length : Int)
  | "min" =>
    match vals with
    | [] => 0
    | v :: rest => rest.foldl min v
  | "max" =>
    match vals with
    | [] => 0
    | v :: rest => rest.foldl max v
  | _ => 0

/-- Produce one output row for a group: plain columns come from the representative
row of the group, aggregate columns from the whole group. -/
def project_row (cols : List SelCol) (group : List Row) (rep : Row) : Row :=
  cols.map fun c =>
    match c with
    | .plain f => (f, (rep.lookup f).getD 0)
    | .aggCol fn f label => (label, eval_agg fn (group.filterMap (fun r => r.lookup f)))

/-- The grouping key of a row: its values at the GROUP BY fields. -/
def group_key (gb : List Field) (r : Row) : List (Option Int) :=
  gb.map (fun f => r.lookup f)

/-- Partition filtered rows into groups sharing the same grouping key. -/
def partition_groups (gb : List Field) (rows : List Row) : List (List Row) :=
  ((rows.map (group_key gb)).dedup).map
    (fun k => rows.filter (fun r => group_key gb r = k))

/-- Is every selected column a plain (non-aggregate) column? -/
def plain_cols_only (cols : List SelCol) : Bool :=
  cols.all fun c => match c with
    | .plain _ => true
    | .aggCol _ _ _ => false

/-- Store-model execution of a SELECT statement: WHERE-filter, then either a
plain projection (with DISTINCT) or a grouped/aggregated projection (with
HAVING), then OFFSET and LIMIT. -/
def exec_select (table : List Row) (q : Query) : List Row :=
  let base := table.filter fun r => q.wherePreds.all fun p => p.eval r
  let rows :=
    if q.groupByCols.isEmpty && plain_cols_only q.cols then
      let projected := base.map fun r => project_row q.cols [r] r
      if q.isDistinct then projected.dedup else projected
    else
      let groups :=
        if q.groupByCols.isEmpty then [base]
        else partition_groups q.groupByCols base
      let outRows := (groups.filter (fun g => !g.isEmpty)).map
        (fun g => project_row q.cols g (g.headD []))
      outRows.filter fun r => q.havingPreds.all fun p => p.eval r
  let rows := match q.offsetN with
    | some n => rows.drop n.toNat
    | none => rows
  match q.limitN with
  | some n => rows.take n.toNat
  | none => rows

/-- Rows of the table matched by the conjunction of the given predicates. -/
def matched_rows (table : List Row) (preds : List Predicate) : List Row :=
  table.filter fun r => preds.all fun p => p.eval r

/-- Apply the SET clause of an UPDATE statement to one row. -/
def set_values (vals : Row) (r : Row) : Row :=
  r.map fun p =>
    match vals.lookup p.1 with
    | some v => (p.1, v)
    | none => p

/-- Store-model execution of an UPDATE statement: the updated table and the
affected row count.  A SET clause naming a column absent from the model is
rejected by the store (the SQLAlchemy unconsumed-column failure). -/
def exec_update (cat : Catalog) (table : List Row) (preds : List Predicate)
    (vals : Row) : Except RepoError (List Row × Int) :=
  if vals.all (fun p => decide (p.1 ∈ cat)) then
    let n := (matched_rows table preds).length
    let newTable := table.map fun r =>
      if preds.all (fun p => p.eval r) then set_values vals r else r
    .ok (newTable, (n : Int))
  else .error (.storeFailure "unconsumed column names")

/-- Store-model execution of a DELETE statement: the remaining table and the
affected row count. -/
def exec_delete (table : List Row) (preds : List Predicate) : List Row × Int :=
  let remaining := table.filter fun r => !(preds.all fun p => p.eval r)
  (remaining, ((matched_rows table preds).length : Int))

/-- Store-model execution of an INSERT statement: rows whose keys are all
model columns are appended; any other key is rejected by the store
(the SQLAlchemy unconsumed-column failure). -/
def exec_insert (cat : Catalog) (table : List Row) (vals : List Row) :
    Except RepoError (List Row × Int) :=
  if vals.all (fun r => r.all fun p => decide (p.1 ∈ cat)) then
    .ok (table ++ vals, (vals.length : Int))
  else .error (.storeFailure "unconsumed column names")

/-! ## Repository operations

Each operation returns its Python-level outcome together with the list of
statements it sent to the store, in order. -/

/-- Embeds `get_one` (lines 74-145).  The optimized path fires when only `id` is
given; `one_or_none` on its result raises `MultipleResultsFound` when the
query returns several rows.  On the general path, `strict` fetches all
matches and raises `MultipleResultsFound` past one; non-strict caps the
query at one row. -/
def get_one (cat : Catalog) (table : List Row) (idv : Option Int)
    (filters : Option FilterDict) (selectFields : Option (List Field))
    (orderBy : Option (List String)) (strict : Bool) :
    Except RepoError (Option Row) × List Stmt :=
  if idv.isSome && filters.isNone && selectFields.isNone && orderBy.isNone then
    let q := { Query.base (cat.map .plain) false with
               wherePreds := [Predicate.eqPred "id" (idv.getD 0)] }
    let ms := exec_select table q
    if ms.length > 1 then (.error .multipleResults, [.selectS q])
    else (.ok ms.head?, [.selectS q])
  else
    match build_select_query cat selectFields false with
    | .error e => (.error e, [])
    | .ok q0 =>
      let q1 := match idv with
        | some i => { q0 with wherePreds := q0.wherePreds ++ [Predicate.eqPred "id" i] }
        | none => q0
      let filtered : Except RepoError Query := match filters with
        | some fd => apply_filters cat q1 fd
        | none => .ok q1
      match filtered with
      | .error e => (.error e, [])
      | .ok q2 =>
        let q3 := if truthyList orderBy then apply_ordering cat q2 (orderBy.getD []) else q2
        if strict then
          let ms := exec_select table q3
          if ms.length > 1 then (.error .multipleResults, [.selectS q3])
          else (.ok ms.head?, [.selectS q3])
        else
          let q4 := { q3 with limitN := some 1 }
          let ms := exec_select table q4
          (.ok ms.head?, [.selectS q4])

/-- The query `get_one` constructs, factored for specification purposes
(same builders, no execution). -/
def get_one_query (cat : Catalog) (idv : Option Int) (filters : Option FilterDict)
    (selectFields : Option (List Field)) (orderBy : Option (List String)) :
    Except RepoError Query :=
  if idv.isSome && filters.isNone && selectFields.isNone && orderBy.isNone then
    .ok { Query.base (cat.map .plain) false with
          wherePreds := [Predicate.eqPred "id" (idv.getD 0)] }
  else
    match build_select_query cat selectFields false with
    | .error e => .error e
    | .ok q0 =>
      let q1 := match idv with
        | some i => { q0 with wherePreds := q0.wherePreds ++ [Predicate.eqPred "id" i] }
        | none => q0
      let filtered : Except RepoError Query := match filters with
        | some fd => apply_filters cat q1 fd
        | none => .ok q1
      match filtered with
      | .error e => .error e
      | .ok q2 =>
        .ok (if truthyList orderBy then apply_ordering cat q2 (orderBy.getD []) else q2)

/-- The keyword arguments of `get_many` (lines 148-162), with their Python
defaults. -/
structure GetManyArgs where
  filters : Option FilterDict := none
  selectFields : Option (List Field) := none
  orderBy : Option (List String) := none
  limitv : Option Int := none
  offsetv : Option Int := none
  isDistinct : Bool := false
  groupBy : Option (List Field) := none
  havingFilters : Option FilterDict := none
  aggs : Option (List (Field × String)) := none
deriving Repr

/-- Embeds `get_many` (lines 148-273): grouped or plain base query, then filters,
grouping, having (only alongside grouping), ordering, offset and limit, then
a single execution; rows come back as label-keyed records. -/
def get_many (cat : Catalog) (table : List Row) (a : GetManyArgs) :
    Except RepoError (List Row) × List Stmt :=
  let built : Except RepoError Query :=
    if truthyList a.groupBy || truthyList a.aggs then
      build_grouped_query cat a.groupBy a.aggs
    else if truthyList a.selectFields then
      match validate_fields cat (a.selectFields.getD []) with
      | .ok valid => .ok (Query.base (valid.map .plain) a.isDistinct)
      | .error e => .error e
    else
      .ok (Query.base (cat.map .plain) a.isDistinct)
  match built with
  | .error e => (.error e, [])
  | .ok q =>
    let filtered : Except RepoError Query := match a.filters with
      | some fd => apply_filters cat q fd
      | none => .ok q
    match filtered with
    | .error e => (.error e, [])
    | .ok q =>
      let q := if truthyList a.groupBy then apply_grouping cat q (a.groupBy.getD []) else q
      let q := if a.havingFilters.isSome && truthyList a.groupBy then
          apply_having_filters cat q (a.havingFilters.getD []) else q
      let q := if truthyList a.orderBy then apply_ordering cat q (a.orderBy.getD []) else q
      let q := if truthyInt a.offsetv then { q with offsetN := a.offsetv } else q
      let q := if truthyInt a.limitv then { q with limitN := a.limitv } else q
      (.ok (exec_select table q), [.selectS q])

/-- Embeds `create` (lines 469-503): normalize to a list of sparse value dicts and
send one batch INSERT; no field validation happens before the statement is
executed.  Returns the row count reported by the store. -/
def create (cat : Catalog) (table : List Row) (vals : List Row) :
    Except RepoError (List Row × Int) × List Stmt :=
  match exec_insert cat table vals with
  | .ok out => (.ok out, [.insertS vals])
  | .error e => (.error e, [.insertS vals])

/-- Embeds `delete` (lines 506-554): by id when given (NotFound on zero rows), else
by filter conditions (NotFound on zero rows), else `EmptyFilterError`.  A
filter that builds zero conditions still executes — with an unconditioned
DELETE. -/
def delete (cat : Catalog) (table : List Row) (idv : Option Int)
    (filters : Option FilterDict) :
    Except RepoError (List Row × Int) × List Stmt :=
  match idv with
  | some i =>
    let preds := [Predicate.eqPred "id" i]
    let (remaining, n) := exec_delete table preds
    if n > 0 then (.ok (remaining, n), [.deleteS preds])
    else (.error .notFound, [.deleteS preds])
  | none =>
    match filters with
    | some fd =>
      match build_conditions cat fd with
      | .error e => (.error e, [])
      | .ok conds =>
        let (remaining, n) := exec_delete table conds
        if n > 0 then (.ok (remaining, n), [.deleteS conds])
        else (.error .notFound, [.deleteS conds])
    | none => (.error .emptyFilter, [])

/-- Embeds `update` (lines 558-619): `EmptyValueError` on an empty values payload,
then by id when given (NotFound on zero rows), else by filter conditions
(NotFound on zero rows), else `EmptyFilterError`.  A filter that builds zero
conditions still executes — with an unconditioned UPDATE. -/
def update (cat : Catalog) (table : List Row) (vals : Row) (idv : Option Int)
    (filters : Option FilterDict) :
    Except RepoError (List Row × Int) × List Stmt :=
  if vals.isEmpty then (.error .emptyValue, [])
  else
    match idv with
    | some i =>
      let preds := [Predicate.eqPred "id" i]
      match exec_update cat table preds vals with
      | .error e => (.error e, [.updateS preds vals])
      | .ok (t, n) =>
        if n = 0 then (.error .notFound, [.updateS preds vals])
        else (.ok (t, n), [.updateS preds vals])
    | none =>
      match filters with
      | some fd =>
        match build_conditions cat fd with
        | .error e => (.error e, [])
        | .ok conds =>
          match exec_update cat table conds vals with
          | .error e => (.error e, [.updateS conds vals])
          | .ok (t, n) =>
            if n = 0 then (.error .notFound, [.updateS conds vals])
            else (.ok (t, n), [.updateS conds vals])
      | none => (.error .emptyFilter, [])

/-! ## Specification-side definitions -/

/-- The predicate one set filter field should contribute, per the spec of
`_build_conditions`: membership for a non-empty sequence, nothing for an
empty sequence, equality otherwise. -/
def pred_of (p : Field × FieldVal) : Option Predicate :=
  match p with
  | (f, .scalar v) => some (.eqPred f v)
  | (f, .seq vs) => if vs.isEmpty then none else some (.inPred f vs)

/-! ## Concrete fixtures used by witnesses and counterexamples -/

/-- The catalog of the test model `TestUser` (id, name, surname, email). -/
def catW : Catalog := ["id", "name", "surname", "email"]

/-- A two-row table; both rows share `name = 10` (two Alices). -/
def tableW : List Row :=
  [[("id", 1), ("name", 10), ("surname", 20), ("email", 30)],
   [("id", 2), ("name", 10), ("surname", 21), ("email", 31)]]

/-- The table `tableW` after an unconditioned `UPDATE ... SET name = 99`. -/
def tableW_updated : List Row :=
  [[("id", 1), ("name", 99), ("surname", 20), ("email", 30)],
   [("id", 2), ("name", 99), ("surname", 21), ("email", 31)]]

/-- A session behavior whose commit fails with a store error and whose
rollback also fails with a store error. -/
def b_commit_fail : SessionBehavior Nat :=
  ⟨.ok (), .ok 7, .error (.sqlAlchemy "boom"), .error (.sqlAlchemy "rollback failed")⟩

/-- The query `get_one` constructs for `filters = {name: 10}` over `catW`. -/
def qW_name : Query :=
  { Query.base (catW.map SelCol.plain) false with wherePreds := [Predicate.eqPred "name" 10] }

/-- The query `get_one` constructs for `filters = {email: 30}` over `catW`. -/
def qW_email : Query :=
  { Query.base (catW.map SelCol.plain) false with wherePreds := [Predicate.eqPred "email" 30] }

/-- The query `get_one` constructs for `filters = {email: 77}` over `catW`
(matching no row of `tableW`). -/
def qW_email77 : Query :=
  { Query.base (catW.map SelCol.plain) false with wherePreds := [Predicate.eqPred "email" 77] }

/-! ## Theorems -/

/-- The `try` body never emits a close event; closing happens only in the
`finally` block. -/
lemma close_not_in_body {α : Type} (iso : Option String) (commit : Bool)
    (b : SessionBehavior α) :
    SessionEvent.closeSession ∉ (connection_body iso commit b).2 := by
  obtain ⟨ir, wr, cr, rr⟩ := b
  rcases iso with _ | lvl <;> rcases commit <;>
    rcases ir with ⟨m1 | m1⟩ | u1 <;>
    rcases wr with ⟨m2 | m2⟩ | a <;>
    rcases cr with ⟨m3 | m3⟩ | u3 <;>
    rcases rr with ⟨m4 | m4⟩ | u4 <;>
    simp [connection_body, handle_sql_error]

/-- When the first store-layer failure happens in the `try` body, the outcome of the
body is that original failure and a rollback was attempted — provided the
rollback itself can only fail with a store-layer error. -/
lemma body_store_failure {α : Type} (iso : Option String) (commit : Bool)
    (b : SessionBehavior α) (hrb : ∀ m, b.rollbackResult ≠ .error (.other m))
    (m : String) (hm : first_store_failure iso commit b = some m) :
    (connection_body iso commit b).1 = .error (.sqlAlchemy m) ∧
    SessionEvent.rollbackTx ∈ (connection_body iso commit b).2 := by
  obtain ⟨ir, wr, cr, rr⟩ := b
  rcases iso with _ | lvl <;> rcases commit <;>
    rcases ir with ⟨m1 | m1⟩ | u1 <;>
    rcases wr with ⟨m2 | m2⟩ | a <;>
    rcases cr with ⟨m3 | m3⟩ | u3 <;>
    rcases rr with ⟨m4 | m4⟩ | u4 <;>
    first
      | exact absurd rfl (hrb _)
      | simp_all [connection_body, handle_sql_error, first_store_failure]

/-- C1: every invocation of the `connection` transaction scope closes its
session exactly once, as the final session event, on every exit path —
success, store-layer failure, or validation (non-store) failure; and when the
first store-layer failure occurs during isolation-setting, the unit of work,
or commit, a rollback is attempted and the outcome of the run is that original
failure, not masked, even when the rollback itself fails with a store-layer
error. -/
theorem connection_scope_spec {α : Type} (iso : Option String) (commit : Bool)
    (b : SessionBehavior α)
    (hrb : ∀ m, b.rollbackResult ≠ .error (.other m)) :
    ((connection_run iso commit b).2.count SessionEvent.closeSession = 1 ∧
      (connection_run iso commit b).2.getLast? = some SessionEvent.closeSession) ∧
    ∀ m, first_store_failure iso commit b = some m →
      (connection_run iso commit b).1 = .error (.sqlAlchemy m) ∧
      SessionEvent.rollbackTx ∈ (connection_run iso commit b).2 := by
  refine ⟨⟨?_, ?_⟩, ?_⟩
  · show ((connection_body iso commit b).2 ++ [SessionEvent.closeSession]).count
      SessionEvent.closeSession = 1
    rw [List.count_append, List.count_eq_zero.mpr (close_not_in_body iso commit b)]
    rfl
  · show ((connection_body iso commit b).2 ++ [SessionEvent.closeSession]).getLast? =
      some SessionEvent.closeSession
    simp
  · intro m hm
    have h := body_store_failure iso commit b hrb m hm
    exact ⟨h.1, List.mem_append_left _ h.2⟩

/-- Witness for C1 at a concrete behavior: isolation set, work succeeds,
commit fails with a store error, rollback fails with a store error. -/
theorem connection_scope_spec_witness :
    ((connection_run (some "SERIALIZABLE") true b_commit_fail).2.count
        SessionEvent.closeSession = 1 ∧
      (connection_run (some "SERIALIZABLE") true b_commit_fail).2.getLast? =
        some SessionEvent.closeSession) ∧
    (connection_run (some "SERIALIZABLE") true b_commit_fail).1 =
      .error (.sqlAlchemy "boom") ∧
    SessionEvent.rollbackTx ∈ (connection_run (some "SERIALIZABLE") true b_commit_fail).2 := by
  have h := connection_scope_spec (some "SERIALIZABLE") true b_commit_fail
    (by intro m; simp [b_commit_fail])
  exact ⟨h.1, h.2 "boom" rfl⟩

/-- When every set field exists in the catalog, `_build_conditions` succeeds
and emits exactly one predicate per set field in order — membership for a
non-empty sequence value, nothing for an empty sequence value, equality
otherwise. -/
lemma build_conditions_ok (cat : Catalog) (fd : FilterDict)
    (h : ∀ p ∈ fd, p.1 ∈ cat) :
    build_conditions cat fd = .ok (fd.filterMap pred_of) := by
  induction fd with
  | nil => rfl
  | cons p rest ih =>
    obtain ⟨f, v⟩ := p
    have hf : f ∈ cat := h (f, v) (List.mem_cons_self _ _)
    have hr : ∀ q ∈ rest, q.1 ∈ cat := fun q hq => h q (List.mem_cons_of_mem _ hq)
    cases v with
    | scalar x =>
      simp [build_conditions, hf, ih hr, List.filterMap_cons, pred_of]
    | seq vs =>
      by_cases he : vs.isEmpty <;>
        simp [build_conditions, hf, he, ih hr, List.filterMap_cons, pred_of]

/-- Here `_build_conditions` fails fast with `InvalidFieldError` at the first set
field absent from the catalog, returning no partial condition list. -/
lemma build_conditions_invalid (cat : Catalog) (pre post : FilterDict)
    (f : Field) (v : FieldVal) (hpre : ∀ p ∈ pre, p.1 ∈ cat) (hf : f ∉ cat) :
    build_conditions cat (pre ++ (f, v) :: post) = .error (.invalidField f) := by
  induction pre with
  | nil => simp [build_conditions, hf]
  | cons p rest ih =>
    obtain ⟨g, w⟩ := p
    have hg : g ∈ cat := hpre (g, w) (List.mem_cons_self _ _)
    have hr : ∀ q ∈ rest, q.1 ∈ cat := fun q hq => hpre q (List.mem_cons_of_mem _ hq)
    cases w with
    | scalar x => simp [build_conditions, hg, ih hr]
    | seq vs => by_cases he : vs.isEmpty <;> simp [build_conditions, hg, he, ih hr]

/-- C2: building predicate conditions from a filter payload emits, per set
field in payload order, an IN predicate for a sequence value, no predicate
for an empty sequence value, and an equality predicate otherwise
(`pred_of`); a set field absent from the catalog makes the whole build fail
with `InvalidFieldError` at the first such field (fail fast, no partial
list); a payload with zero set fields yields the empty list. -/
theorem build_conditions_cases_spec (cat : Catalog) (fd : FilterDict) :
    ((∀ p ∈ fd, p.1 ∈ cat) → build_conditions cat fd = .ok (fd.filterMap pred_of)) ∧
    (∀ pre f v post, fd = pre ++ (f, v) :: post → (∀ p ∈ pre, p.1 ∈ cat) →
      f ∉ cat → build_conditions cat fd = .error (.invalidField f)) ∧
    (fd = [] → build_conditions cat fd = .ok []) := by
  refine ⟨fun h => build_conditions_ok cat fd h, fun pre f v post heq hpre hf => ?_, ?_⟩
  · rw [heq]
    exact build_conditions_invalid cat pre post f v hpre hf
  · rintro rfl
    rfl

/-- Witness for C2 at concrete payloads: a scalar field, a skipped empty
sequence and a non-empty sequence; a fail-fast invalid field after a valid
one; the empty payload. -/
theorem build_conditions_cases_spec_witness :
    build_conditions ["id", "name"]
        [("name", .scalar 3), ("id", .seq []), ("id", .seq [1, 2])] =
      .ok [.eqPred "name" 3, .inPred "id" [1, 2]] ∧
    build_conditions ["id", "name"] [("name", .scalar 3), ("zzz", .scalar 0)] =
      .error (.invalidField "zzz") ∧
    build_conditions ["id", "name"] [] = .ok [] := by
  refine ⟨?_, ?_, ?_⟩
  · exact (build_conditions_cases_spec ["id", "name"]
      [("name", .scalar 3), ("id", .seq []), ("id", .seq [1, 2])]).1 (by decide)
  · exact (build_conditions_cases_spec ["id", "name"]
      [("name", .scalar 3), ("zzz", .scalar 0)]).2.1
      [("name", .scalar 3)] "zzz" (.scalar 0) [] rfl (by decide) (by decide)
  · exact (build_conditions_cases_spec ["id", "name"] []).2.2 rfl

/-- C3: `get_one` with `strict = true` evaluates the constructed query and
fails with the multiple-results condition when it matches more than one row,
returns the single matching row as a field-to-value record when it matches
exactly one, and returns none — raising nothing — when it matches zero rows
(this covers both the optimized id-only path, whose `one_or_none` raises on
multiple rows, and the general strict path, which fetches all matches). -/
theorem get_one_strict_cases (cat : Catalog) (table : List Row) (idv : Option Int)
    (filters : Option FilterDict) (selF : Option (List Field))
    (ordB : Option (List String)) (q : Query)
    (hq : get_one_query cat idv filters selF ordB = .ok q) :
    get_one cat table idv filters selF ordB true =
      if (exec_select table q).length > 1 then (.error .multipleResults, [.selectS q])
      else (.ok (exec_select table q).head?, [.selectS q]) := by
  unfold get_one
  unfold get_one_query at hq
  by_cases hopt : (idv.isSome && filters.isNone && selF.isNone && ordB.isNone) = true
  · rw [if_pos hopt] at hq ⊢
    have h := Except.ok.inj hq
    subst h
    rfl
  · rw [if_neg hopt] at hq ⊢
    split at hq
    · cases hq
    · dsimp only at hq ⊢
      split at hq
      · cases hq
      · have h := Except.ok.inj hq
        subst h
        rfl

/-- Witness for C3 over `tableW` (two rows sharing `name = 10`): the
name-filter matches two rows and fails with the multiple-results condition;
an email-filter matching one row returns that record; an email-filter
matching nothing returns none. -/
theorem get_one_strict_cases_witness :
    get_one catW tableW none (some [("name", FieldVal.scalar 10)]) none none true =
      (.error .multipleResults, [.selectS qW_name]) ∧
    get_one catW tableW none (some [("email", FieldVal.scalar 30)]) none none true =
      (.ok (some [("id", 1), ("name", 10), ("surname", 20), ("email", 30)]),
        [.selectS qW_email]) ∧
    get_one catW tableW none (some [("email", FieldVal.scalar 77)]) none none true =
      (.ok none, [.selectS qW_email77]) := by
  refine ⟨?_, ?_, ?_⟩
  · have h := get_one_strict_cases catW tableW none (some [("name", .scalar 10)])
      none none qW_name rfl
    rw [h]; rfl
  · have h := get_one_strict_cases catW tableW none (some [("email", .scalar 30)])
      none none qW_email rfl
    rw [h]; rfl
  · have h := get_one_strict_cases catW tableW none (some [("email", .scalar 77)])
      none none qW_email77 rfl
    rw [h]; rfl

/-- C4 (code bug): `get_many` with a having-filter and no grouping does not
fail with a usage error — line 231 of abstract_repo.py guards
`_apply_having_filters` with `having_filters and group_by`, there is no
error branch, and `exc.py` defines no usage-error class; the having-filter
is silently ignored and the ungrouped query executes, returning every row. -/
theorem get_many_having_without_grouping_ignored :
    get_many catW tableW { havingFilters := some [("id", FieldVal.scalar 5)] } =
      get_many catW tableW {} ∧
    (get_many catW tableW { havingFilters := some [("id", FieldVal.scalar 5)] }).1 =
      .ok tableW :=
  ⟨rfl, rfl⟩

/-- C5 (code bug): a filter object with zero set fields does not raise
`EmptyFilterError` in `delete`/`update` — `filters is not None` holds, the
built condition list is empty, and `.where(*conditions)` with no conditions
executes an unconditioned statement against the whole table: here every row
of `tableW` is deleted (resp. updated) and the operation reports success. -/
theorem empty_filter_executes_unconditioned_stmt :
    delete catW tableW none (some []) = (.ok ([], 2), [.deleteS []]) ∧
    update catW tableW [("name", 99)] none (some []) =
      (.ok (tableW_updated, 2), [.updateS [] [("name", 99)]]) :=
  ⟨rfl, rfl⟩

/-- C6 (code bug): `create` performs no catalog validation — the unknown
field reaches the store inside an executed INSERT statement and surfaces as
a store-layer failure, not as `InvalidFieldError` before execution; and an
aggregations entry whose field is absent from the catalog is silently
skipped by `_build_grouped_query` (line 324 has no else branch), falling
back to selecting every column instead of failing with `InvalidFieldError`. -/
theorem create_and_aggregations_skip_field_validation :
    create catW tableW [[("bogus", 1)]] =
      (.error (.storeFailure "unconsumed column names"), [.insertS [[("bogus", 1)]]]) ∧
    get_many catW tableW { aggs := some [("bogus", "count")] } =
      get_many catW tableW {} ∧
    (get_many catW tableW { aggs := some [("bogus", "count")] }).1 = .ok tableW :=
  ⟨rfl, rfl, rfl⟩

/-- C7 counterexample: an aggregations map assigning the function name
"bogus" — outside {count, sum, avg, min, max} — to the field "zzz" does not
fail with `UnknowAggregationFunc`: because "zzz" is absent from the catalog
the whole entry is silently skipped and `get_many` returns every row. -/
theorem get_many_unknown_func_on_unknown_field_no_failure :
    get_many catW tableW { aggs := some [("zzz", "bogus")] } =
      get_many catW tableW {} ∧
    (get_many catW tableW { aggs := some [("zzz", "bogus")] }).1 = .ok tableW :=
  ⟨rfl, rfl⟩

/-- When every requested field exists in the catalog, `_validate_fields`
returns them unchanged. -/
lemma validate_fields_ok (cat : Catalog) (fs : List Field) (h : ∀ f ∈ fs, f ∈ cat) :
    validate_fields cat fs = .ok fs := by
  induction fs with
  | nil => rfl
  | cons f rest ih =>
    have hf : f ∈ cat := h f (List.mem_cons_self _ _)
    have hr : ∀ g ∈ rest, g ∈ cat := fun g hg => h g (List.mem_cons_of_mem _ hg)
    simp [validate_fields, hf, ih hr]

/-- The aggregation loop fails with `UnknowAggregationFunc` whenever some
entry pairs a catalog field with a function name outside the whitelist. -/
lemma agg_columns_bad_func (cat : Catalog) (ags : List (Field × String))
    (f : Field) (fn : String) (hmem : (f, fn) ∈ ags) (hf : f ∈ cat)
    (hfn : str_lower fn ∉ valid_agg_funcs) :
    ∃ g, agg_columns cat ags = .error (.unknownAggregationFunc g) ∧
      str_lower g ∉ valid_agg_funcs := by
  induction ags with
  | nil => cases hmem
  | cons p rest ih =>
    obtain ⟨f0, fn0⟩ := p
    by_cases h0 : f0 ∈ cat
    · by_cases h1 : str_lower fn0 ∈ valid_agg_funcs
      · rcases List.mem_cons.mp hmem with heq | hmem2
        · injection heq with he1 he2
          subst he1; subst he2
          exact absurd h1 hfn
        · obtain ⟨g, hg, hbad⟩ := ih hmem2
          exact ⟨g, by simp [agg_columns, h0, h1, hg], hbad⟩
      · exact ⟨fn0, by simp [agg_columns, h0, h1], h1⟩
    · rcases List.mem_cons.mp hmem with heq | hmem2
      · injection heq with he1 he2
        subst he1; subst he2
        exact absurd hf h0
      · obtain ⟨g, hg, hbad⟩ := ih hmem2
        exact ⟨g, by simp [agg_columns, h0, hg], hbad⟩

/-- C7 (amended): a `get_many` call whose aggregations map assigns a function
name outside {count, sum, avg, min, max} to some field *present in the
catalog* fails with `UnknowAggregationFunc` before any statement reaches the
store (empty statement trace); entries whose field is absent from the catalog
are skipped instead.  The group-by fields are assumed valid so the earlier
group-by validation does not fail first. -/
theorem get_many_unknown_agg_func_spec (cat : Catalog) (table : List Row)
    (a : GetManyArgs) (ags : List (Field × String)) (f : Field) (fn : String)
    (haggs : a.aggs = some ags) (hmem : (f, fn) ∈ ags) (hf : f ∈ cat)
    (hfn : str_lower fn ∉ valid_agg_funcs)
    (hgb : ∀ g ∈ a.groupBy.getD [], g ∈ cat) :
    ∃ g, get_many cat table a = (.error (.unknownAggregationFunc g), []) ∧
      str_lower g ∉ valid_agg_funcs := by
  obtain ⟨g, hg, hbad⟩ := agg_columns_bad_func cat ags f fn hmem hf hfn
  have htr : truthyList a.aggs = true := by
    rw [haggs]
    cases ags with
    | nil => cases hmem
    | cons x xs => rfl
  have hgrp : build_grouped_query cat a.groupBy a.aggs =
      .error (.unknownAggregationFunc g) := by
    unfold build_grouped_query
    by_cases htg : truthyList a.groupBy = true
    · rw [if_pos htg, validate_fields_ok cat _ hgb]
      dsimp only
      rw [if_pos htr, haggs]
      dsimp only [Option.getD_some]
      rw [hg]
    · rw [if_neg htg]
      dsimp only
      rw [if_pos htr, haggs]
      dsimp only [Option.getD_some]
      rw [hg]
  refine ⟨g, ?_, hbad⟩
  unfold get_many
  rw [if_pos (by rw [htr, Bool.or_true])]
  rw [hgrp]

/-- Witness for C7 (amended): aggregations `{"id": "bogus"}` — with "id" in
the catalog — fails with `UnknowAggregationFunc` and an empty statement
trace. -/
theorem get_many_unknown_agg_func_spec_witness :
    ∃ g, get_many catW tableW { aggs := some [("id", "bogus")] } =
      (.error (.unknownAggregationFunc g), []) ∧ str_lower g ∉ valid_agg_funcs :=
  get_many_unknown_agg_func_spec catW tableW { aggs := some [("id", "bogus")] }
    [("id", "bogus")] "id" "bogus" rfl (by decide) (by decide) (by decide)
    (by intro g hg; exact absurd hg (List.not_mem_nil g))

/-- C8: an `update` whose values payload has zero set fields fails with
`EmptyValueError` and executes no statement, regardless of the id or filter
arguments and of the data state. -/
theorem update_empty_values_spec (cat : Catalog) (table : List Row)
    (idv : Option Int) (filters : Option FilterDict) :
    update cat table [] idv filters = (.error .emptyValue, []) := rfl

/-- Running `exec_update` on a values payload whose fields are all in the catalog
succeeds and reports the matched-row count. -/
lemma exec_update_valid (cat : Catalog) (table : List Row) (preds : List Predicate)
    (vals : Row) (hvals : ∀ p ∈ vals, p.1 ∈ cat) :
    exec_update cat table preds vals =
      .ok (table.map (fun r => if preds.all (fun p => p.eval r) then set_values vals r else r),
        ((matched_rows table preds).length : Int)) := by
  unfold exec_update
  have hall : vals.all (fun p => decide (p.1 ∈ cat)) = true := by
    simp [List.all_eq_true]
    exact fun a b hab => hvals (a, b) hab
  rw [if_pos hall]

lemma int_len_zero (l : List Row) : ((l.length : Int) = 0) ↔ l = [] := by
  simp

lemma int_len_pos (l : List Row) : ((l.length : Int) > 0) ↔ l ≠ [] := by
  simp [List.length_pos]

/-- Id-scoped `update`: NotFound exactly when the id matches zero rows,
otherwise the matched-row count is returned. -/
lemma update_by_id_parts (cat : Catalog) (table : List Row) (i : Int) (vals : Row)
    (fl : Option FilterDict) (hne : vals ≠ []) (hvals : ∀ p ∈ vals, p.1 ∈ cat) :
    ((update cat table vals (some i) fl).1 = .error .notFound ↔
      matched_rows table [.eqPred "id" i] = []) ∧
    (matched_rows table [.eqPred "id" i] ≠ [] → ∃ t,
      (update cat table vals (some i) fl).1 =
        .ok (t, ((matched_rows table [.eqPred "id" i]).length : Int))) := by
  have hemp : vals.isEmpty = false := by
    cases vals with
    | nil => exact absurd rfl hne
    | cons a l => rfl
  unfold update
  rw [if_neg (by simp [hemp])]
  dsimp only
  rw [exec_update_valid cat table _ vals hvals]
  dsimp only
  by_cases hm : matched_rows table [Predicate.eqPred "id" i] = []
  · rw [if_pos (by rw [hm]; rfl)]
    simp [hm]
  · rw [if_neg (fun h => hm ((int_len_zero _).mp h))]
    simp [hm]

/-- Filter-scoped `update`: same NotFound/row-count dichotomy over the built
conditions. -/
lemma update_by_filter_parts (cat : Catalog) (table : List Row) (vals : Row)
    (fd : FilterDict) (conds : List Predicate)
    (hbc : build_conditions cat fd = .ok conds)
    (hne : vals ≠ []) (hvals : ∀ p ∈ vals, p.1 ∈ cat) :
    ((update cat table vals none (some fd)).1 = .error .notFound ↔
      matched_rows table conds = []) ∧
    (matched_rows table conds ≠ [] → ∃ t,
      (update cat table vals none (some fd)).1 =
        .ok (t, ((matched_rows table conds).length : Int))) := by
  have hemp : vals.isEmpty = false := by
    cases vals with
    | nil => exact absurd rfl hne
    | cons a l => rfl
  unfold update
  rw [if_neg (by simp [hemp])]
  dsimp only
  rw [hbc]
  dsimp only
  rw [exec_update_valid cat table conds vals hvals]
  dsimp only
  by_cases hm : matched_rows table conds = []
  · rw [if_pos (by rw [hm]; rfl)]
    simp [hm]
  · rw [if_neg (fun h => hm ((int_len_zero _).mp h))]
    simp [hm]

/-- Id-scoped `delete`: NotFound exactly when the id matches zero rows,
otherwise the matched-row count is returned. -/
lemma delete_by_id_parts (cat : Catalog) (table : List Row) (i : Int)
    (fl : Option FilterDict) :
    ((delete cat table (some i) fl).1 = .error .notFound ↔
      matched_rows table [.eqPred "id" i] = []) ∧
    (matched_rows table [.eqPred "id" i] ≠ [] → ∃ t,
      (delete cat table (some i) fl).1 =
        .ok (t, ((matched_rows table [.eqPred "id" i]).length : Int))) := by
  unfold delete
  dsimp only [exec_delete]
  by_cases hm : matched_rows table [Predicate.eqPred "id" i] = []
  · rw [if_neg (by rw [hm]; decide)]
    simp [hm]
  · rw [if_pos ((int_len_pos _).mpr hm)]
    simp [hm]

/-- Filter-scoped `delete`: same NotFound/row-count dichotomy over the built
conditions. -/
lemma delete_by_filter_parts (cat : Catalog) (table : List Row)
    (fd : FilterDict) (conds : List Predicate)
    (hbc : build_conditions cat fd = .ok conds) :
    ((delete cat table none (some fd)).1 = .error .notFound ↔
      matched_rows table conds = []) ∧
    (matched_rows table conds ≠ [] → ∃ t,
      (delete cat table none (some fd)).1 =
        .ok (t, ((matched_rows table conds).length : Int))) := by
  unfold delete
  dsimp only
  rw [hbc]
  dsimp only [exec_delete]
  by_cases hm : matched_rows table conds = []
  · rw [if_neg (by rw [hm]; decide)]
    simp [hm]
  · rw [if_pos ((int_len_pos _).mpr hm)]
    simp [hm]

/-- C9: every id- or filter-scoped `update` (with a non-empty, valid values
payload) or `delete` fails with `NotFoundError` exactly when it matched zero
rows, and otherwise succeeds returning the count of affected rows. -/
theorem scoped_update_delete_rowcount_spec (cat : Catalog) (table : List Row) :
    (∀ (i : Int) (vals : Row) (fl : Option FilterDict), vals ≠ [] →
      (∀ p ∈ vals, p.1 ∈ cat) →
      (((update cat table vals (some i) fl).1 = .error .notFound ↔
          matched_rows table [.eqPred "id" i] = []) ∧
        (matched_rows table [.eqPred "id" i] ≠ [] → ∃ t,
          (update cat table vals (some i) fl).1 =
            .ok (t, ((matched_rows table [.eqPred "id" i]).length : Int))))) ∧
    (∀ (vals : Row) (fd : FilterDict) (conds : List Predicate),
      build_conditions cat fd = .ok conds → vals ≠ [] → (∀ p ∈ vals, p.1 ∈ cat) →
      (((update cat table vals none (some fd)).1 = .error .notFound ↔
          matched_rows table conds = []) ∧
        (matched_rows table conds ≠ [] → ∃ t,
          (update cat table vals none (some fd)).1 =
            .ok (t, ((matched_rows table conds).length : Int))))) ∧
    (∀ (i : Int) (fl : Option FilterDict),
      ((delete cat table (some i) fl).1 = .error .notFound ↔
        matched_rows table [.eqPred "id" i] = []) ∧
      (matched_rows table [.eqPred "id" i] ≠ [] → ∃ t,
        (delete cat table (some i) fl).1 =
          .ok (t, ((matched_rows table [.eqPred "id" i]).length : Int)))) ∧
    (∀ (fd : FilterDict) (conds : List Predicate),
      build_conditions cat fd = .ok conds →
      (((delete cat table none (some fd)).1 = .error .notFound ↔
          matched_rows table conds = []) ∧
        (matched_rows table conds ≠ [] → ∃ t,
          (delete cat table none (some fd)).1 =
            .ok (t, ((matched_rows table conds).length : Int))))) :=
  ⟨fun i vals fl hne hvals => update_by_id_parts cat table i vals fl hne hvals,
   fun vals fd conds hbc hne hvals =>
     update_by_filter_parts cat table vals fd conds hbc hne hvals,
   fun i fl => delete_by_id_parts cat table i fl,
   fun fd conds hbc => delete_by_filter_parts cat table fd conds hbc⟩

/-- Witness for C9 over `tableW`: updating or deleting id 9 (absent) fails
with NotFound; updating id 1 affects one row; deleting by the name filter
affects both rows. -/
theorem scoped_update_delete_rowcount_spec_witness :
    (update catW tableW [("name", 5)] (some 9) none).1 = .error .notFound ∧
    (∃ t, (update catW tableW [("name", 5)] (some 1) none).1 = .ok (t, 1)) ∧
    (delete catW tableW (some 9) none).1 = .error .notFound ∧
    (∃ t, (delete catW tableW none (some [("name", FieldVal.scalar 10)])).1 =
      .ok (t, 2)) := by
  have h := scoped_update_delete_rowcount_spec catW tableW
  refine ⟨?_, ?_, ?_, ?_⟩
  · exact (h.1 9 [("name", 5)] none (by decide) (by decide)).1.mpr rfl
  · exact (h.1 1 [("name", 5)] none (by decide) (by decide)).2 (by decide)
  · exact (h.2.2.1 9 none).1.mpr rfl
  · exact (h.2.2.2 [("name", FieldVal.scalar 10)] [Predicate.eqPred "name" 10]
      rfl).2 (by decide)

/-- C10: `get_many` with `limit = 0` or `offset = 0` behaves identically to
omitting the parameter — Python falsiness of 0 skips the clause, so no LIMIT
or OFFSET is applied and the full result sequence is returned. -/
theorem get_many_zero_pagination_spec (cat : Catalog) (table : List Row)
    (a : GetManyArgs) :
    get_many cat table { a with limitv := some 0 } =
      get_many cat table { a with limitv := none } ∧
    get_many cat table { a with offsetv := some 0 } =
      get_many cat table { a with offsetv := none } := by
  obtain ⟨fl, sf, ob, lim, off, dist, gb, hv, ag⟩ := a
  constructor <;> simp [get_many, truthyInt]

end DbAlchemy
